import Mathlib

/-!
Verification of the record-store front-end utilities and view logic.

Shallow embedding of the repository's pure logic:

* `src/utils/formatPrice.ts` — `formatETHPrice`
* `src/utils/resolveForIpfs.ts` — `resolveIpfsUrl`
* `src/app/buy-record/[contractAddress]/page.tsx` — buy-page render decision
* the Store / MyRecords collection views (sanitization, batched-read join,
  render decision) and the RecordBox card image-state machine
* the owner page's track-list rendering

JavaScript strings are modelled as Lean `String`s, JS `BigInt` as `Int`
(with `Int.tdiv` / `Int.tmod`, which match `BigInt`'s truncated division and
dividend-signed remainder), and ambient browser state
(`window.location.hostname`) is passed explicitly.
-/

namespace RecordStoreVerification

/-! ## JavaScript string primitives -/

/-- The ASCII whitespace characters recognised by JS `String.prototype.trim`
and by the `StringToBigInt` conversion (we model the ASCII portion of the
spec's `StrWhiteSpace`; the repository only ever deals with ASCII data). -/
def jsWhitespaceChars : List Char := [' ', '\t', '\n', '\r', '\x0b', '\x0c']

def isJsWhitespace (c : Char) : Bool := jsWhitespaceChars.contains c

/-- JS `String.prototype.trim`: strip whitespace from both ends. -/
def jsTrim (s : String) : String :=
  String.mk (((s.data.dropWhile isJsWhitespace).reverse.dropWhile isJsWhitespace).reverse)

/-- JS `String.prototype.padStart(n, c)` with a one-character pad string. -/
def jsPadStart (s : String) (n : Nat) (c : Char) : String :=
  if n ≤ s.length then s else String.mk (List.replicate (n - s.length) c ++ s.data)

/-- `.replace(/0+$/, "")`: remove the maximal run of trailing `'0'`s. -/
def stripTrailingZeros (s : String) : String :=
  String.mk ((s.data.reverse.dropWhile (fun c => c == '0')).reverse)

/-- JS `String.prototype.toLowerCase` (ASCII portion; addresses are ASCII). -/
def jsToLower (s : String) : String := String.mk (s.data.map Char.toLower)

/-- Replace the first occurrence of `pat` (leftmost match) by `repl`;
if `pat` does not occur, the list is returned unchanged.  This is the
semantics of JS `String.prototype.replace` with a string pattern. -/
def replaceFirstList (pat repl : List Char) : List Char → List Char
  | [] => if pat.isPrefixOf ([] : List Char) then repl else []
  | c :: cs =>
    if pat.isPrefixOf (c :: cs) then repl ++ (c :: cs).drop pat.length
    else c :: replaceFirstList pat repl cs

/-- JS `s.replace(pat, repl)` with a string (non-regexp) pattern. -/
def jsReplaceFirst (s pat repl : String) : String :=
  String.mk (replaceFirstList pat.data repl.data s.data)

/-- `pat` occurs somewhere in the list. -/
def hasSubstring (pat : List Char) : List Char → Bool
  | [] => pat.isPrefixOf ([] : List Char)
  | c :: cs => pat.isPrefixOf (c :: cs) || hasSubstring pat cs

/-- `pat` occurs at position `i`. -/
def occursAtB (pat s : List Char) (i : Nat) : Bool := pat.isPrefixOf (s.drop i)

/-! ## JS `BigInt` parsing and printing -/

def decDigit? (c : Char) : Option Nat :=
  if c.isDigit then some (c.toNat - '0'.toNat) else none

def hexDigit? (c : Char) : Option Nat :=
  if c.isDigit then some (c.toNat - '0'.toNat)
  else if 'a' ≤ c ∧ c ≤ 'f' then some (c.toNat - 'a'.toNat + 10)
  else if 'A' ≤ c ∧ c ≤ 'F' then some (c.toNat - 'A'.toNat + 10)
  else none

def octDigit? (c : Char) : Option Nat :=
  if '0' ≤ c ∧ c ≤ '7' then some (c.toNat - '0'.toNat) else none

def binDigit? (c : Char) : Option Nat :=
  if c = '0' then some 0 else if c = '1' then some 1 else none

/-- Value of a non-empty digit sequence in the given base; `none` if the
sequence is empty or contains a character that is not a digit of the base. -/
def digitsVal? (digit? : Char → Option Nat) (base : Nat) (l : List Char) : Option Nat :=
  if l.isEmpty then none
  else
    l.foldl
      (fun acc c =>
        match acc, digit? c with
        | some a, some d => some (a * base + d)
        | _, _ => none)
      (some 0)

/-- Model of the JS `BigInt(string)` constructor (`StringToBigInt`): trim
whitespace; an empty remainder parses as `0`; `0x`/`0o`/`0b` radix prefixes
(no sign allowed); otherwise an optional sign followed by decimal digits
(no decimal point, no exponent).  `none` models the thrown `SyntaxError`. -/
def parseBigInt (s : String) : Option Int :=
  match (jsTrim s).data with
  | [] => some 0
  | '0' :: 'x' :: rest => (digitsVal? hexDigit? 16 rest).map Int.ofNat
  | '0' :: 'X' :: rest => (digitsVal? hexDigit? 16 rest).map Int.ofNat
  | '0' :: 'o' :: rest => (digitsVal? octDigit? 8 rest).map Int.ofNat
  | '0' :: 'O' :: rest => (digitsVal? octDigit? 8 rest).map Int.ofNat
  | '0' :: 'b' :: rest => (digitsVal? binDigit? 2 rest).map Int.ofNat
  | '0' :: 'B' :: rest => (digitsVal? binDigit? 2 rest).map Int.ofNat
  | '+' :: rest => (digitsVal? decDigit? 10 rest).map Int.ofNat
  | '-' :: rest => (digitsVal? decDigit? 10 rest).map (fun n => -(Int.ofNat n))
  | l => (digitsVal? decDigit? 10 l).map Int.ofNat

/-- JS `BigInt.prototype.toString()` (decimal, `-` sign for negatives). -/
def jsBigIntToString : Int → String
  | Int.ofNat m => Nat.repr m
  | Int.negSucc m => "-" ++ Nat.repr (m + 1)

/-! ## `src/utils/formatPrice.ts` -/

/-- `BigInt(10 ** 18)`: `10 ** 18` is exactly representable as a JS number
(`10 ^ 18 = 2 ^ 18 * 5 ^ 18` with `5 ^ 18 < 2 ^ 53`), so this is exactly
`10 ^ 18`. -/
def weiPerEth : Int := Int.ofNat (10 ^ 18)

/-- `formatETHPrice` from `src/utils/formatPrice.ts`.  The `try`/`catch`
around `BigInt(priceStr)` is modelled by matching on `parseBigInt`; the
remaining statements of the `try` block (`toString`, `padStart`, `replace`,
template literals) cannot throw.  JS `BigInt` `/` and `%` are truncated
division and dividend-signed remainder, i.e. `Int.tdiv` / `Int.tmod`. -/
def formatETHPrice (priceStr : String) : String :=
  match parseBigInt priceStr with
  | none => priceStr
  | some bigIntPrice =>
    let whole := Int.tdiv bigIntPrice weiPerEth
    let fraction := Int.tmod bigIntPrice weiPerEth
    let wholeStr := jsBigIntToString whole
    let fractionStr := jsPadStart (jsBigIntToString fraction) 18 '0'
    let trimmedFraction := stripTrailingZeros fractionStr
    if trimmedFraction ≠ "" then wholeStr ++ "." ++ trimmedFraction ++ " ETH"
    else wholeStr ++ ".0000 ETH"

/-! ## `src/utils/resolveForIpfs.ts` -/

/-- `resolveIpfsUrl` from `src/utils/resolveForIpfs.ts`, with
`window.location.hostname` passed explicitly as `hostname`. -/
def resolveIpfsUrl (hostname ipfsUri : String) : String :=
  let cid := jsReplaceFirst ipfsUri "ipfs://" ""
  if hostname = "localhost" then "http://127.0.0.1:8080/ipfs/" ++ cid
  else "https://ipfs.io/ipfs/" ++ cid

/-- The gateway URL prefix the resolver selects for a given hostname
(spec side: "the selected gateway prefix"). -/
def gatewayFor (hostname : String) : String :=
  if hostname = "localhost" then "http://127.0.0.1:8080/ipfs/"
  else "https://ipfs.io/ipfs/"

/-! ## Supporting lemmas on the string primitives -/

theorem isPrefixOf_append_self (l r : List Char) : l.isPrefixOf (l ++ r) = true := by
  induction l with
  | nil => simp [List.isPrefixOf]
  | cons c cs ih => simp [List.isPrefixOf, ih]

theorem replaceFirstList_of_no_occurrence (pat repl : List Char) :
    ∀ l : List Char, hasSubstring pat l = false → replaceFirstList pat repl l = l := by
  intro l
  induction l with
  | nil =>
    intro h
    simp only [hasSubstring] at h
    simp [replaceFirstList, h]
  | cons c cs ih =>
    intro h
    simp only [hasSubstring, Bool.or_eq_false_iff] at h
    simp [replaceFirstList, h.1, ih h.2]

theorem replaceFirstList_first_occurrence (pat repl : List Char) :
    ∀ (l : List Char) (i : Nat),
      (∀ j, j < i → occursAtB pat l j = false) →
      occursAtB pat l i = true →
      replaceFirstList pat repl l = l.take i ++ repl ++ l.drop (i + pat.length) := by
  intro l
  induction l with
  | nil =>
    intro i h1 h2
    simp only [occursAtB, List.drop_nil] at h2
    cases i with
    | zero => simp [replaceFirstList, h2]
    | succ i =>
      have h0 := h1 0 (Nat.succ_pos i)
      simp only [occursAtB, List.drop_nil] at h0
      rw [h0] at h2
      exact absurd h2 (by simp)
  | cons c cs ih =>
    intro i h1 h2
    cases i with
    | zero =>
      simp only [occursAtB, List.drop_zero] at h2
      simp [replaceFirstList, h2]
    | succ i =>
      have h0 := h1 0 (Nat.succ_pos i)
      simp only [occursAtB, List.drop_zero] at h0
      have h2' : occursAtB pat cs i = true := by
        simpa [occursAtB, List.drop_succ_cons] using h2
      have h1' : ∀ j, j < i → occursAtB pat cs j = false := by
        intro j hj
        have := h1 (j + 1) (Nat.succ_lt_succ hj)
        simpa [occursAtB, List.drop_succ_cons] using this
      simp only [replaceFirstList, h0, if_neg, Bool.false_eq_true, ite_false,
        ih i h1' h2', List.take_succ_cons, List.drop_succ_cons, Nat.succ_add,
        List.cons_append]

theorem resolveIpfsUrl_eq_gateway (hostname s : String) :
    resolveIpfsUrl hostname s = gatewayFor hostname ++ jsReplaceFirst s "ipfs://" "" := by
  by_cases h : hostname = "localhost" <;> simp [resolveIpfsUrl, gatewayFor, h]

theorem jsReplaceFirst_marker_of_append (X : String) :
    jsReplaceFirst ("ipfs://" ++ X) "ipfs://" "" = X := by
  have hocc : occursAtB ("ipfs://".data) (("ipfs://" ++ X).data) 0 = true := by
    simp only [occursAtB, List.drop_zero, String.data_append]
    exact isPrefixOf_append_self ("ipfs://".data) X.data
  have h := replaceFirstList_first_occurrence ("ipfs://".data) ("".data)
    (("ipfs://" ++ X).data) 0 (fun j hj => absurd hj (Nat.not_lt_zero j)) hocc
  have hd : (("ipfs://" ++ X).data).drop (0 + ("ipfs://".data).length) = X.data := by
    simp only [Nat.zero_add, String.data_append]
    exact List.drop_left ("ipfs://".data) X.data
  simp only [jsReplaceFirst, h, hd, List.take_zero, List.nil_append]

/-! ## Theorems for the price formatter (C1, C2) -/

/-- **C1.** For every string `s` that `BigInt` parses to a non-negative
integer `n`, `formatETHPrice s` is `"{whole}.{trimmedFraction} ETH"` where
`whole` is the decimal rendering of `n / 10 ^ 18` and `trimmedFraction` is
the 18-digit zero-padded rendering of `n % 10 ^ 18` with trailing zeros
stripped; when the remainder is zero (so the trimmed fraction is empty) the
result is `"{whole}.0000 ETH"`.  The instance
`formatETHPrice "1000000000000000000" = "1.0000 ETH"` is checked in the
witness. -/
theorem formatETHPrice_numeric (s : String) (n : Nat)
    (h : parseBigInt s = some (Int.ofNat n)) :
    formatETHPrice s =
      (if stripTrailingZeros (jsPadStart (Nat.repr (n % 10 ^ 18)) 18 '0') ≠ "" then
        Nat.repr (n / 10 ^ 18) ++ "." ++
          stripTrailingZeros (jsPadStart (Nat.repr (n % 10 ^ 18)) 18 '0') ++ " ETH"
      else Nat.repr (n / 10 ^ 18) ++ ".0000 ETH") ∧
    (n % 10 ^ 18 = 0 → formatETHPrice s = Nat.repr (n / 10 ^ 18) ++ ".0000 ETH") := by
  have hmain : formatETHPrice s =
      (if stripTrailingZeros (jsPadStart (Nat.repr (n % 10 ^ 18)) 18 '0') ≠ "" then
        Nat.repr (n / 10 ^ 18) ++ "." ++
          stripTrailingZeros (jsPadStart (Nat.repr (n % 10 ^ 18)) 18 '0') ++ " ETH"
      else Nat.repr (n / 10 ^ 18) ++ ".0000 ETH") := by
    simp only [formatETHPrice, h]
    rfl
  refine ⟨hmain, fun h0 => ?_⟩
  rw [hmain, h0]
  have hz : stripTrailingZeros (jsPadStart (Nat.repr 0) 18 '0') = "" := rfl
  rw [hz]
  simp

/-- Witness for C1 at the mint price from the spec's end-to-end example. -/
theorem formatETHPrice_numeric_witness :
    formatETHPrice "1000000000000000000" = "1.0000 ETH" := by
  have h := (formatETHPrice_numeric "1000000000000000000" (10 ^ 18) (by decide)).2 (by decide)
  exact h.trans (by decide)

/-- **C2.** For every input string that does not parse as a JS `BigInt`
(non-numeric input), `formatETHPrice` returns the input unchanged.  The
embedding is a total function: the source catches the only throwing
operation (`BigInt(priceStr)`), so no input raises. -/
theorem formatETHPrice_nonNumeric (s : String) (h : parseBigInt s = none) :
    formatETHPrice s = s := by
  simp [formatETHPrice, h]

/-- Witness for C2 on a concrete non-numeric input. -/
theorem formatETHPrice_nonNumeric_witness :
    formatETHPrice "not a number" = "not a number" :=
  formatETHPrice_nonNumeric "not a number" (by decide)

/-! ## Theorems for the IPFS resolver (C3, C10) -/

/-- **C3.** For every string `X`, `resolveIpfsUrl` applied to
`"ipfs://" ++ X` returns a gateway URL ending in `X`; the result is the
local-gateway URL (`http://127.0.0.1:8080/ipfs/`) exactly for hostname
`"localhost"` and the public-gateway URL (`https://ipfs.io/ipfs/`) for
every other hostname.  The function is total (synchronous, no failure
path). -/
theorem resolveIpfsUrl_ipfs (hostname X : String) :
    (∃ pre : String, resolveIpfsUrl hostname ("ipfs://" ++ X) = pre ++ X) ∧
    resolveIpfsUrl "localhost" ("ipfs://" ++ X) = "http://127.0.0.1:8080/ipfs/" ++ X ∧
    (hostname ≠ "localhost" →
      resolveIpfsUrl hostname ("ipfs://" ++ X) = "https://ipfs.io/ipfs/" ++ X) := by
  have hcid := jsReplaceFirst_marker_of_append X
  refine ⟨⟨gatewayFor hostname, ?_⟩, ?_, fun hne => ?_⟩
  · rw [resolveIpfsUrl_eq_gateway, hcid]
  · rw [resolveIpfsUrl_eq_gateway, hcid]
    simp [gatewayFor]
  · rw [resolveIpfsUrl_eq_gateway, hcid]
    simp [gatewayFor, hne]

/-- Witness for C3 on a non-localhost hostname and a concrete CID. -/
theorem resolveIpfsUrl_ipfs_witness :
    resolveIpfsUrl "example.com" ("ipfs://" ++ "QmAbc") = "https://ipfs.io/ipfs/" ++ "QmAbc" :=
  (resolveIpfsUrl_ipfs "example.com" "QmAbc").2.2 (by decide)

/-- **C10.** For every input that does not contain the substring
`"ipfs://"` (including ordinary http/https URLs), `resolveIpfsUrl` returns
the selected gateway prefix concatenated with the input unchanged — non-IPFS
URLs are rewritten into gateway URLs, never passed through untouched.  For
inputs containing the marker, only the first (leftmost) occurrence is
removed, wherever it appears in the string. -/
theorem resolveIpfsUrl_rewrite (hostname s : String) :
    (hasSubstring ("ipfs://".data) s.data = false →
      resolveIpfsUrl hostname s = gatewayFor hostname ++ s) ∧
    (∀ i : Nat,
      (∀ j, j < i → occursAtB ("ipfs://".data) s.data j = false) →
      occursAtB ("ipfs://".data) s.data i = true →
      (resolveIpfsUrl hostname s).data =
        (gatewayFor hostname).data ++ (s.data.take i ++ s.data.drop (i + 7))) := by
  constructor
  · intro hno
    rw [resolveIpfsUrl_eq_gateway]
    have : jsReplaceFirst s "ipfs://" "" = s := by
      simp only [jsReplaceFirst, replaceFirstList_of_no_occurrence _ _ _ hno]
    rw [this]
  · intro i h1 h2
    rw [resolveIpfsUrl_eq_gateway]
    have hlen : ("ipfs://".data).length = 7 := rfl
    have h := replaceFirstList_first_occurrence ("ipfs://".data) ("".data) s.data i h1 h2
    rw [hlen] at h
    simp only [String.data_append, jsReplaceFirst, h]
    simp

/-- Witness for C10: a plain https URL is rewritten under the public
gateway, and in a string with two markers only the first is removed. -/
theorem resolveIpfsUrl_rewrite_witness :
    resolveIpfsUrl "example.com" "https://x" = gatewayFor "example.com" ++ "https://x" ∧
    (resolveIpfsUrl "example.com" "abipfs://cd").data =
      (gatewayFor "example.com").data ++
        (("abipfs://cd".data).take 2 ++ ("abipfs://cd".data).drop (2 + 7)) :=
  ⟨(resolveIpfsUrl_rewrite "example.com" "https://x").1 (by decide),
   (resolveIpfsUrl_rewrite "example.com" "abipfs://cd").2 2 (by decide) (by decide)⟩

/-! ## Buy page (`src/app/buy-record/[contractAddress]/page.tsx`)

On-chain `bigint` values read from the contract (`mintPrice`, `supply`,
`tokenCount`) are non-negative, modelled as `Nat`. -/

/-- The indexer row used by the buy page (name/artist/symbol of a record). -/
structure RecordEmitData where
  artist : String
  name : String
  symbol : String
deriving DecidableEq

/-- The four live on-chain values read by `useContractData`; with
`allowFailure: false` the batch either yields all four or none, so the page
sees `some` of all fields or `none`. -/
structure ContractSnapshot where
  mintPrice : Nat
  supply : Nat
  tokenCount : Nat
  previewImageUrl : String
deriving DecidableEq

inductive BuyStats where
  | soldOut
  | connectWallet
  | mintControl (disabled : Bool) (label : String)
deriving DecidableEq

inductive BuyRender where
  | loading
  | noListing
  | contractError
  | content (stats : BuyStats)
deriving DecidableEq

/-- Render decision of `BuyRecordPage`: the loading guard, the missing
indexer-data guard, the contract-read error guard, and then the stats block
`tokenCount >= supply ? soldOut : !isConnected ? connectWallet :
mintControl` with the mint button disabled while a signature is pending
(`disabled={isMintPending || tokenCount >= supply}`) and relabelled. -/
def buyRecordPageRender (isEmitLoading isContractLoading : Bool)
    (emit : Option RecordEmitData) (contractIsError : Bool)
    (cd : Option ContractSnapshot) (isConnected isMintPending : Bool) : BuyRender :=
  if isEmitLoading || isContractLoading then BuyRender.loading
  else
    match emit with
    | none => BuyRender.noListing
    | some e =>
      if contractIsError then BuyRender.contractError
      else
        match cd with
        | none => BuyRender.contractError
        | some c =>
          BuyRender.content
            (if c.supply ≤ c.tokenCount then BuyStats.soldOut
             else if !isConnected then BuyStats.connectWallet
             else
               BuyStats.mintControl (isMintPending || decide (c.supply ≤ c.tokenCount))
                 (if isMintPending then "Waiting for Signature..." else "Mint " ++ e.symbol))

/-! ## My Records view (`src/unnamed/part_003`)

The viem `getAddress` checksum validator is an external library accessed
through a narrow interface; it is passed in as `getAddr : String → Option
String` (`some` = the checksummed address, `none` = the thrown error). -/

/-- One `allRecordDeployeds` node as used by the My Records view. -/
structure DeployedRecord where
  record : String
  artist : String
  name : String
  contractAddress : String
deriving DecidableEq

/-- An entry of the sanitized list: the checksummed record address plus
display fields. -/
structure SanitizedRecord where
  contractAddress : String
  name : String
  artist : String
deriving DecidableEq

/-- `normalizeAddress` from the My Records view: `!raw` (null/undefined or
empty string) gives `undefined`; then trim; an empty trimmed string gives
`undefined`; then `getAddress` with its throw caught as `undefined`. -/
def normalizeAddress (getAddr : String → Option String) (raw : Option String) :
    Option String :=
  match raw with
  | none => none
  | some r =>
    if r = "" then none
    else
      let t := jsTrim r
      if t = "" then none else getAddr t

/-- The `sanitizedRecords` memo: keep each deployment whose `record` address
normalizes, carrying the checksummed address (the `console.warn` on the
discard path is not modelled). -/
def sanitizedRecords (getAddr : String → Option String)
    (records : List DeployedRecord) : List SanitizedRecord :=
  records.filterMap fun r =>
    (normalizeAddress getAddr (some r.record)).map fun a =>
      SanitizedRecord.mk a r.name r.artist

/-- The contract addresses handed to the batched `useReadContracts` call
(one `tokensOfOwner` read per sanitized record). -/
def readTargets (getAddr : String → Option String)
    (records : List DeployedRecord) : List String :=
  (sanitizedRecords getAddr records).map fun r => r.contractAddress

/-- Outcome of one entry of the batched `tokensOfOwner` read
(`result.status === "success"` carrying the token ids, or `"failure"`).
Token ids (`bigint`) are modelled as `Nat`. -/
inductive ReadResult where
  | success (tokenIds : List Nat)
  | failure
deriving DecidableEq

def emptyTokenMap : String → Option (List Nat) := fun _ => none

def updateMap (m : String → Option (List Nat)) (k : String) (v : List Nat) :
    String → Option (List Nat) :=
  fun x => if x = k then some v else m x

/-- One step of the mapping loop (step 4 of the view): a successful read
with a non-empty id list stores `map[addr.toLowerCase()] = tokenIds`;
failures (logged in the source) and empty lists store nothing. -/
def ownedMapStep (m : String → Option (List Nat)) (p : String × ReadResult) :
    String → Option (List Nat) :=
  match p.2 with
  | ReadResult.success ids => if 0 < ids.length then updateMap m (jsToLower p.1) ids else m
  | ReadResult.failure => m

/-- The `ownedTokensByContract` mapping built from the batched results. -/
def buildOwnedMap (pairs : List (String × ReadResult)) : String → Option (List Nat) :=
  pairs.foldl ownedMapStep emptyTokenMap

/-- One rendered item of the owned list. -/
structure OwnedItem where
  contractAddress : String
  name : String
  artist : String
  tokenId : Nat
deriving DecidableEq

def listFlatMap {α β : Type} (f : α → List β) : List α → List β
  | [] => []
  | a :: l => f a ++ listFlatMap f l

/-- Items contributed by one sanitized record (step 5 of the view):
`if (!tokenIds?.length) continue`, else one item per owned token id. -/
def itemsFor (m : String → Option (List Nat)) (rec : SanitizedRecord) : List OwnedItem :=
  match m (jsToLower rec.contractAddress) with
  | none => []
  | some ids => ids.map fun tid => OwnedItem.mk rec.contractAddress rec.name rec.artist tid

/-- The `ownedItems` memo: expand the sanitized records against the mapping
built from the batched read results. -/
def ownedItems (sanitized : List SanitizedRecord) (results : List ReadResult) :
    List OwnedItem :=
  listFlatMap (itemsFor (buildOwnedMap ((sanitized.map fun r => r.contractAddress).zip results)))
    sanitized

/-! ## Collection view renders (`src/unnamed/part_002`, `src/unnamed/part_003`) -/

/-- A Store card's props (from the indexer row). -/
structure StoreCard where
  contractAddress : String
  name : String
  artist : String
deriving DecidableEq

/-- Vocabulary of the Store view's conditional output.  `emptyMsg` is the
"nothing found" message the spec describes; the constructor exists so that
its absence from the Store render is statable. -/
inductive StoreNode where
  | loadingMsg
  | errorMsg
  | emptyMsg
  | grid (cards : List StoreCard)
deriving DecidableEq

/-- Render of the `Store` component: `{isLoading && <p>Loading...</p>}`,
`{error && <p>Error loading records</p>}`, then the card grid
(unconditionally). -/
def storeRender (isLoading : Bool) (isError : Bool) (records : List StoreCard) :
    List StoreNode :=
  (if isLoading then [StoreNode.loadingMsg] else []) ++
  (if isError then [StoreNode.errorMsg] else []) ++
  [StoreNode.grid records]

inductive MyRecordsNode where
  | loadingMsg
  | errorMsg
  | emptyMsg
  | grid (items : List OwnedItem)
deriving DecidableEq

/-- Render of the `MyRecords` component: `loading = isFetching || isReading`,
`anyError = !!fetchError || readError`, the "You don't own any records yet."
message gated on `!loading && !anyError && ownedItems.length === 0`, then
the grid. -/
def myRecordsRender (isFetching isReading fetchError readError : Bool)
    (items : List OwnedItem) : List MyRecordsNode :=
  let loading := isFetching || isReading
  let anyError := fetchError || readError
  (if loading then [MyRecordsNode.loadingMsg] else []) ++
  (if anyError then [MyRecordsNode.errorMsg] else []) ++
  (if !loading && !anyError && decide (items.length = 0) then [MyRecordsNode.emptyMsg]
   else []) ++
  [MyRecordsNode.grid items]

/-! ## Owner page track list (`src/unnamed/part_001`) -/

/-- One entry of the metadata's `songs` array.  `track` is a JS number used
as a track index, modelled as `Nat`. -/
structure Song where
  track : Nat
  title : String
  artist : String
  duration : Option String
  audio : String
deriving DecidableEq

/-- The sort order induced by the comparator
`(a, b) => (a.track ?? 0) - (b.track ?? 0)`: `a` sorts no later than `b`
exactly when the comparator is `≤ 0`, i.e. `a.track ≤ b.track`. -/
def songLe (a b : Song) : Bool := decide (a.track ≤ b.track)

/-- JS `Array.prototype.sort` with a consistent comparator: a stable sort
by the comparator order (modelled by `List.mergeSort`). -/
def sortSongs (songs : List Song) : List Song := songs.mergeSort songLe

/-- What the page renders for one song: track number, titles, and an
`<audio>` element whose `src` is `resolveIpfsUrl(song.audio)`. -/
structure RenderedTrack where
  track : Nat
  title : String
  artist : String
  audioSrc : String
deriving DecidableEq

def renderTrack (hostname : String) (s : Song) : RenderedTrack :=
  RenderedTrack.mk s.track s.title s.artist (resolveIpfsUrl hostname s.audio)

inductive TracksRender where
  | noTracks
  | trackList (tracks : List RenderedTrack)
deriving DecidableEq

/-- The Tracks section of `OwnerRecordPage`:
`!metadata?.songs?.length` shows "No tracks found for this token.",
otherwise the songs are sorted by the track comparator and mapped to
rendered tracks. -/
def ownerTracksRender (hostname : String) (songs : Option (List Song)) : TracksRender :=
  match songs with
  | none => TracksRender.noTracks
  | some l =>
    if l.length = 0 then TracksRender.noTracks
    else TracksRender.trackList ((sortSongs l).map (renderTrack hostname))

/-! ## Record card (`src/unnamed/part_005`) -/

/-- The card's two variants: "market" (collection preview) and "owned"
(per-token metadata). -/
inductive CardVariant where
  | market
  | owned (tokenId : Nat)
deriving DecidableEq

/-- Settled outcome of the on-chain URI read (`previewImageURI` for market,
`tokenURI(tokenId)` for owned). -/
inductive UriRead where
  | readError
  | readOk (uri : String)
deriving DecidableEq

/-- Settled outcome of the owned variant's metadata fetch: a network/HTTP
error, or a parsed JSON document whose `image` field may be absent. -/
inductive MetaFetch where
  | fetchError
  | fetchOk (image : Option String)
deriving DecidableEq

/-- The settled `(imageUrl, error)` state of `useRecordImage` once all
loading has finished: a read error leaves `imageUrl` null with a truthy
error; the market variant resolves the preview URI directly; the owned
variant's fetch error, or a missing `image` field (the thrown
`"No 'image' field in token metadata"`), is caught and recorded as the
error state with `imageUrl` reset to null. -/
def settledImage (hostname : String) (variant : CardVariant) (uriRead : UriRead)
    (fetched : MetaFetch) : Option String × Bool :=
  match uriRead with
  | UriRead.readError => (none, true)
  | UriRead.readOk uri =>
    match variant with
    | CardVariant.market => (some (resolveIpfsUrl hostname uri), false)
    | CardVariant.owned _ =>
      match fetched with
      | MetaFetch.fetchError => (none, true)
      | MetaFetch.fetchOk none => (none, true)
      | MetaFetch.fetchOk (some img) => (some (resolveIpfsUrl hostname img), false)

inductive ImageRender where
  | fallback
  | image (url : String)
deriving DecidableEq

/-- `RecordBox`'s image area after loading:
`showFallback = !!error || !imageUrl` selects the static
`/placeholder.png`, otherwise the resolved image is shown. -/
def recordBoxImage (state : Option String × Bool) : ImageRender :=
  match state with
  | (some url, false) => ImageRender.image url
  | _ => ImageRender.fallback

/-- The rendered image area of a `RecordBox` with settled inputs. -/
def recordBoxRender (hostname : String) (variant : CardVariant) (uriRead : UriRead)
    (fetched : MetaFetch) : ImageRender :=
  recordBoxImage (settledImage hostname variant uriRead fetched)

/-! ## Theorem for the buy page (C4) -/

/-- **C4.** On the buy page with fetched data present (guards passed),
`tokenCount >= supply` renders the "All Records Minted" state regardless of
wallet connection; the "Please Connect A Wallet" state and the active mint
control render only when `tokenCount < supply` (and respectively without /
with a connected wallet). -/
theorem buyPage_soldOut_priority (e : RecordEmitData) (c : ContractSnapshot)
    (isConnected isMintPending : Bool) :
    (c.supply ≤ c.tokenCount →
      buyRecordPageRender false false (some e) false (some c) isConnected isMintPending =
        BuyRender.content BuyStats.soldOut) ∧
    (buyRecordPageRender false false (some e) false (some c) isConnected isMintPending =
        BuyRender.content BuyStats.connectWallet →
      c.tokenCount < c.supply ∧ isConnected = false) ∧
    (∀ d l, buyRecordPageRender false false (some e) false (some c) isConnected isMintPending =
        BuyRender.content (BuyStats.mintControl d l) →
      c.tokenCount < c.supply ∧ isConnected = true) := by
  by_cases hs : c.supply ≤ c.tokenCount
  · refine ⟨fun _ => ?_, fun h => ?_, fun d l h => ?_⟩
    · simp [buyRecordPageRender, hs]
    · simp [buyRecordPageRender, hs] at h
    · simp [buyRecordPageRender, hs] at h
  · have hlt : c.tokenCount < c.supply := Nat.lt_of_not_le hs
    refine ⟨fun h => absurd h hs, fun h => ?_, fun d l h => ?_⟩
    · cases isConnected
      · exact ⟨hlt, rfl⟩
      · simp [buyRecordPageRender, hs] at h
    · cases isConnected
      · simp [buyRecordPageRender, hs] at h
      · exact ⟨hlt, rfl⟩

/-- Witness for C4: a fully minted record (5 of 5) with no wallet connected
still renders the sold-out state. -/
theorem buyPage_soldOut_priority_witness :
    buyRecordPageRender false false (some (RecordEmitData.mk "artist" "name" "SYM")) false
      (some (ContractSnapshot.mk 1000 5 5 "img")) false false =
      BuyRender.content BuyStats.soldOut :=
  (buyPage_soldOut_priority (RecordEmitData.mk "artist" "name" "SYM")
    (ContractSnapshot.mk 1000 5 5 "img") false false).1 (by decide)

/-! ## Theorems for the My Records sanitization (C5) -/

theorem mem_listFlatMap {α β : Type} (f : α → List β) (b : β) :
    ∀ l : List α, b ∈ listFlatMap f l ↔ ∃ a ∈ l, b ∈ f a := by
  intro l
  induction l with
  | nil => simp [listFlatMap]
  | cons a l ih => simp [listFlatMap, ih]

theorem itemsFor_contractAddress (m : String → Option (List Nat))
    (rec : SanitizedRecord) (item : OwnedItem) (h : item ∈ itemsFor m rec) :
    item.contractAddress = rec.contractAddress := by
  unfold itemsFor at h
  cases hm : m (jsToLower rec.contractAddress) with
  | none => rw [hm] at h; simp at h
  | some ids =>
    rw [hm] at h
    obtain ⟨tid, _, rfl⟩ := List.mem_map.mp h
    rfl

/-- **C5.** In the My Records view, a deployment whose record address
passes checksum validation is included in the batched on-chain read targets
(first conjunct); every read target comes from a deployment whose address
validated (second conjunct) — so a deployment that fails validation
contributes no read; and every rendered owned item's contract is one of the
read targets (third conjunct) — so failing deployments are also absent from
the rendered list. -/
theorem myRecords_address_validation (getAddr : String → Option String)
    (records : List DeployedRecord) :
    (∀ r ∈ records, ∀ a, normalizeAddress getAddr (some r.record) = some a →
      a ∈ readTargets getAddr records) ∧
    (∀ a ∈ readTargets getAddr records, ∃ r ∈ records,
      normalizeAddress getAddr (some r.record) = some a) ∧
    (∀ results : List ReadResult,
      ∀ item ∈ ownedItems (sanitizedRecords getAddr records) results,
        item.contractAddress ∈ readTargets getAddr records) := by
  refine ⟨?_, ?_, ?_⟩
  · intro r hr a ha
    refine List.mem_map.mpr ⟨SanitizedRecord.mk a r.name r.artist, ?_, rfl⟩
    refine List.mem_filterMap.mpr ⟨r, hr, ?_⟩
    rw [ha]
    rfl
  · intro a ha
    obtain ⟨x, hx, hproj⟩ := List.mem_map.mp ha
    obtain ⟨r, hr, hfr⟩ := List.mem_filterMap.mp hx
    obtain ⟨b, hb, hbx⟩ := Option.map_eq_some'.mp hfr
    refine ⟨r, hr, ?_⟩
    rw [hb]
    rw [← hbx] at hproj
    exact congrArg some hproj
  · intro results item hitem
    obtain ⟨rec, hrec, hin⟩ := (mem_listFlatMap _ _ _).mp hitem
    rw [itemsFor_contractAddress _ _ _ hin]
    exact List.mem_map.mpr ⟨rec, hrec, rfl⟩

/-- A concrete checksum validator for the C5 witness: accepts exactly
`"0xAbC"`. -/
def getAddrW : String → Option String :=
  fun s => if s = "0xAbC" then some "0xAbC" else none

/-- Concrete indexer rows for the C5 witness: one valid and one invalid
record address. -/
def recordsW : List DeployedRecord :=
  [DeployedRecord.mk "0xAbC" "artist1" "name1" "0xFac",
   DeployedRecord.mk "nonsense" "artist2" "name2" "0xFac"]

/-- Witness for C5: the validating deployment's checksummed address is
among the batched read targets. -/
theorem myRecords_address_validation_witness :
    "0xAbC" ∈ readTargets getAddrW recordsW :=
  (myRecords_address_validation getAddrW recordsW).1
    (DeployedRecord.mk "0xAbC" "artist1" "name1" "0xFac") (by decide) "0xAbC" (by decide)

/-! ## Theorems for the collection views' empty state (C7) -/

/-- **C7 counterexample.** In the Store view, a successful fetch with zero
records (not loading, no error, empty list) renders only the (empty) card
grid: there is no "nothing found" message, contradicting the claim that
both collection views render one. -/
theorem store_empty_success_no_message :
    StoreNode.emptyMsg ∉ storeRender false false [] ∧
    storeRender false false [] = [StoreNode.grid []] := by
  constructor
  · decide
  · rfl

/-- **C7 amended.** Only the My Records view renders an explicit
"nothing found" message on an empty successful result; the Store view never
renders such a message and shows just an empty grid. -/
theorem collection_empty_message (isLoading isError : Bool) (cards : List StoreCard)
    (items : List OwnedItem) :
    (items = [] → MyRecordsNode.emptyMsg ∈ myRecordsRender false false false false items) ∧
    StoreNode.emptyMsg ∉ storeRender isLoading isError cards := by
  constructor
  · intro h
    subst h
    simp [myRecordsRender]
  · cases isLoading <;> cases isError <;> simp [storeRender]

/-- Witness for C7 (amended) at concrete empty-success inputs. -/
theorem collection_empty_message_witness :
    MyRecordsNode.emptyMsg ∈ myRecordsRender false false false false [] ∧
    StoreNode.emptyMsg ∉ storeRender false false [] :=
  ⟨(collection_empty_message false false [] []).1 rfl,
   (collection_empty_message false false [] []).2⟩

/-! ## Theorem for the owner page track list (C8) -/

/-- **C8.** For a metadata document with a non-empty songs list, the owner
page renders the track list sorted ascending by track number regardless of
the input order (the rendered list is a permutation of the rendered input
songs), and each rendered track's audio source is the IPFS-resolved form of
that song's audio URI. -/
theorem ownerTracks_sorted (hostname : String) (songs : List Song) (h : songs ≠ []) :
    ∃ ts : List RenderedTrack,
      ownerTracksRender hostname (some songs) = TracksRender.trackList ts ∧
      ts.Pairwise (fun a b => a.track ≤ b.track) ∧
      ts.Perm (songs.map (renderTrack hostname)) ∧
      ∀ t ∈ ts, ∃ s ∈ songs, t = renderTrack hostname s ∧
        t.audioSrc = resolveIpfsUrl hostname s.audio := by
  have hl : ¬songs.length = 0 := by
    simpa [List.length_eq_zero] using h
  refine ⟨(sortSongs songs).map (renderTrack hostname), ?_, ?_, ?_, ?_⟩
  · simp [ownerTracksRender, hl]
  · have htrans : ∀ a b c : Song, songLe a b = true → songLe b c = true → songLe a c = true := by
      intro a b c hab hbc
      simp only [songLe, decide_eq_true_eq] at *
      exact Nat.le_trans hab hbc
    have htotal : ∀ a b : Song, (songLe a b || songLe b a) = true := by
      intro a b
      simp only [songLe, Bool.or_eq_true, decide_eq_true_eq]
      exact Nat.le_total a.track b.track
    have hs := List.sorted_mergeSort htrans htotal songs
    refine List.pairwise_map.mpr (hs.imp ?_)
    intro a b hab
    simpa [songLe, renderTrack] using hab
  · exact (List.mergeSort_perm songs songLe).map (renderTrack hostname)
  · intro t ht
    obtain ⟨s, hsmem, rfl⟩ := List.mem_map.mp ht
    exact ⟨s, ((List.mergeSort_perm songs songLe).mem_iff).mp hsmem, rfl, rfl⟩

/-- Witness for C8 on a two-song list given in descending track order. -/
theorem ownerTracks_sorted_witness :
    ∃ ts : List RenderedTrack,
      ownerTracksRender "example.com"
        (some [Song.mk 2 "b" "x" none "ipfs://b", Song.mk 1 "a" "x" none "ipfs://a"]) =
        TracksRender.trackList ts ∧
      ts.Pairwise (fun a b => a.track ≤ b.track) ∧
      ts.Perm ([Song.mk 2 "b" "x" none "ipfs://b", Song.mk 1 "a" "x" none "ipfs://a"].map
        (renderTrack "example.com")) ∧
      ∀ t ∈ ts, ∃ s ∈ [Song.mk 2 "b" "x" none "ipfs://b", Song.mk 1 "a" "x" none "ipfs://a"],
        t = renderTrack "example.com" s ∧
        t.audioSrc = resolveIpfsUrl "example.com" s.audio :=
  ownerTracks_sorted "example.com"
    [Song.mk 2 "b" "x" none "ipfs://b", Song.mk 1 "a" "x" none "ipfs://a"] (by decide)

/-! ## Theorem for the record card fallback (C9) -/

/-- **C9.** For either card variant, every image-resolution failure — the
on-chain URI read erroring, the owned variant's metadata fetch erroring, or
the metadata lacking an `image` field — renders the static fallback image.
The model is a total function: all failures are caught inside the hook
(only logged), never thrown to the caller. -/
theorem recordBox_failure_fallback (hostname : String) (variant : CardVariant)
    (uriRead : UriRead) (fetched : MetaFetch) :
    (uriRead = UriRead.readError →
      recordBoxRender hostname variant uriRead fetched = ImageRender.fallback) ∧
    (∀ t, variant = CardVariant.owned t → fetched = MetaFetch.fetchError →
      recordBoxRender hostname variant uriRead fetched = ImageRender.fallback) ∧
    (∀ t, variant = CardVariant.owned t → fetched = MetaFetch.fetchOk none →
      recordBoxRender hostname variant uriRead fetched = ImageRender.fallback) := by
  refine ⟨fun h => ?_, fun t hv hf => ?_, fun t hv hf => ?_⟩
  · subst h
    rfl
  · subst hv
    subst hf
    cases uriRead <;> rfl
  · subst hv
    subst hf
    cases uriRead <;> rfl

/-- Witness for C9: a failing preview read on a market card renders the
fallback image. -/
theorem recordBox_failure_fallback_witness :
    recordBoxRender "localhost" CardVariant.market UriRead.readError
      (MetaFetch.fetchOk none) = ImageRender.fallback :=
  (recordBox_failure_fallback "localhost" CardVariant.market UriRead.readError
    (MetaFetch.fetchOk none)).1 rfl

/-! ## Theorem for the My Records join (C6) -/

/-- The value the mapping loop ultimately stores under key `k`: the last
(successful, non-empty) batched result whose lowercased address is `k`. -/
def findStored (k : String) : List (String × ReadResult) → Option (List Nat)
  | [] => none
  | p :: rest =>
    match findStored k rest with
    | some v => some v
    | none =>
      match p.2 with
      | ReadResult.success ids =>
        if jsToLower p.1 = k ∧ 0 < ids.length then some ids else none
      | ReadResult.failure => none

theorem foldl_ownedMapStep (pairs : List (String × ReadResult)) :
    ∀ (m0 : String → Option (List Nat)) (k : String),
      (pairs.foldl ownedMapStep m0) k =
        match findStored k pairs with
        | some v => some v
        | none => m0 k := by
  induction pairs with
  | nil => intro m0 k; rfl
  | cons p rest ih =>
    intro m0 k
    rw [List.foldl_cons, ih]
    cases hf : findStored k rest with
    | some v => simp [findStored, hf]
    | none =>
      simp only [findStored, hf]
      obtain ⟨addr, r⟩ := p
      cases r with
      | success ids =>
        simp only [ownedMapStep]
        by_cases hlen : 0 < ids.length
        · by_cases hk : jsToLower addr = k
          · simp [hlen, hk, updateMap]
          · have hk' : ¬k = jsToLower addr := fun he => hk he.symm
            simp [hlen, hk, hk', updateMap]
        · simp [hlen]
      | failure => rfl

theorem findStored_of_not_mem (k : String) (pairs : List (String × ReadResult))
    (h : k ∉ pairs.map fun p => jsToLower p.1) : findStored k pairs = none := by
  induction pairs with
  | nil => rfl
  | cons p rest ih =>
    simp only [List.map_cons, List.mem_cons, not_or] at h
    simp only [findStored, ih h.2]
    have h1 : ¬jsToLower p.1 = k := fun he => h.1 he.symm
    cases hp : p.2 with
    | success ids => simp [h1]
    | failure => rfl

theorem listFlatMap_congr {α β : Type} (f g : α → List β) (l : List α)
    (h : ∀ a ∈ l, f a = g a) : listFlatMap f l = listFlatMap g l := by
  induction l with
  | nil => rfl
  | cons a l ih =>
    simp only [listFlatMap, h a (List.mem_cons_self a l),
      ih fun x hx => h x (List.mem_cons_of_mem a hx)]

theorem listFlatMap_itemsFor_empty (l : List SanitizedRecord) :
    listFlatMap (itemsFor emptyTokenMap) l = [] := by
  induction l with
  | nil => rfl
  | cons s ss ih => simp [listFlatMap, itemsFor, emptyTokenMap, ih]

/-- **C6.** With distinct (lowercased) contract addresses, the My Records
owned-item list is the flattening, over the checksum-valid contracts in
order, of one item per (contract, owned token id) pair returned by that
contract's ownership read; a contract whose read failed contributes zero
items rather than failing the whole list. -/
theorem ownedItems_flatten (sanitized : List SanitizedRecord) (results : List ReadResult)
    (hnd : (sanitized.map fun r => jsToLower r.contractAddress).Nodup) :
    ownedItems sanitized results =
      listFlatMap (fun p : SanitizedRecord × ReadResult =>
        match p.2 with
        | ReadResult.success ids =>
          ids.map fun tid => OwnedItem.mk p.1.contractAddress p.1.name p.1.artist tid
        | ReadResult.failure => []) (sanitized.zip results) := by
  induction sanitized generalizing results with
  | nil => cases results <;> rfl
  | cons s ss ih =>
    simp only [List.map_cons, List.nodup_cons] at hnd
    obtain ⟨hhead, htail⟩ := hnd
    cases results with
    | nil =>
      simp only [ownedItems, List.zip_nil_right, buildOwnedMap, List.foldl_nil]
      rw [listFlatMap_itemsFor_empty]
      rfl
    | cons r rs =>
      have hkeys : jsToLower s.contractAddress ∉
          ((ss.map fun t => t.contractAddress).zip rs).map fun p => jsToLower p.1 := by
        intro hmem
        obtain ⟨p, hp, hpe⟩ := List.mem_map.mp hmem
        obtain ⟨t, ht, hte⟩ := List.mem_map.mp (List.of_mem_zip hp).1
        exact hhead (List.mem_map.mpr ⟨t, ht, by rw [hte, hpe]⟩)
      have hmhead :
          buildOwnedMap ((s.contractAddress, r) :: (ss.map fun t => t.contractAddress).zip rs)
            (jsToLower s.contractAddress) =
          (match r with
           | ReadResult.success ids => if 0 < ids.length then some ids else none
           | ReadResult.failure => none) := by
        rw [buildOwnedMap, foldl_ownedMapStep]
        rw [show findStored (jsToLower s.contractAddress)
            ((s.contractAddress, r) :: (ss.map fun t => t.contractAddress).zip rs) =
            (match r with
             | ReadResult.success ids => if 0 < ids.length then some ids else none
             | ReadResult.failure => none) from ?_]
        · cases r with
          | success ids => by_cases hlen : 0 < ids.length <;> simp [hlen, emptyTokenMap]
          | failure => rfl
        · simp only [findStored, findStored_of_not_mem _ _ hkeys]
          cases r with
          | success ids => simp
          | failure => rfl
      have htailmap : ∀ rec ∈ ss,
          itemsFor (buildOwnedMap
            ((s.contractAddress, r) :: (ss.map fun t => t.contractAddress).zip rs)) rec =
          itemsFor (buildOwnedMap ((ss.map fun t => t.contractAddress).zip rs)) rec := by
        intro rec hrec
        have hne : ¬jsToLower s.contractAddress = jsToLower rec.contractAddress :=
          fun he => hhead (List.mem_map.mpr ⟨rec, hrec, he.symm⟩)
        unfold itemsFor
        rw [show buildOwnedMap
            ((s.contractAddress, r) :: (ss.map fun t => t.contractAddress).zip rs)
            (jsToLower rec.contractAddress) =
            buildOwnedMap ((ss.map fun t => t.contractAddress).zip rs)
            (jsToLower rec.contractAddress) from ?_]
        rw [buildOwnedMap, buildOwnedMap, foldl_ownedMapStep, foldl_ownedMapStep]
        cases hf : findStored (jsToLower rec.contractAddress)
            ((ss.map fun t => t.contractAddress).zip rs) with
        | some v => simp [findStored, hf]
        | none =>
          simp only [findStored, hf]
          cases r with
          | success ids => simp [hne]
          | failure => rfl
      have ihrs := ih rs htail
      simp only [ownedItems] at ihrs
      simp only [ownedItems, List.map_cons, List.zip_cons_cons, listFlatMap]
      rw [listFlatMap_congr _ _ ss htailmap, ihrs]
      congr 1
      unfold itemsFor
      rw [hmhead]
      cases r with
      | success ids =>
        by_cases hlen : 0 < ids.length
        · simp [hlen]
        · have hids : ids = [] := List.length_eq_zero.mp (Nat.eq_zero_of_not_pos hlen)
          subst hids
          simp
      | failure => rfl

/-- Concrete sanitized records for the C6 witness. -/
def sanitizedW : List SanitizedRecord :=
  [SanitizedRecord.mk "0xA" "n1" "a1", SanitizedRecord.mk "0xB" "n2" "a2"]

/-- Concrete batched results for the C6 witness: the first contract owns
tokens 1 and 2, the second contract's read fails. -/
def resultsW : List ReadResult := [ReadResult.success [1, 2], ReadResult.failure]

/-- Witness for C6: the failed read contributes zero items and the
successful one yields one item per owned token id. -/
theorem ownedItems_flatten_witness :
    ownedItems sanitizedW resultsW =
      [OwnedItem.mk "0xA" "n1" "a1" 1, OwnedItem.mk "0xA" "n1" "a1" 2] :=
  (ownedItems_flatten sanitizedW resultsW (by decide)).trans (by decide)

end RecordStoreVerification
